import Mathlib

/-!
# Verification of the Drizzle note-app data-access layer

Shallow embedding of the repository's relational data-access layer:

* `shared/schema.ts` — the `users` and `notes` tables become the `User` and
  `Note` structures; insert shapes become `InsertUser` / `InsertNote`
  (with `isImportant` defaulting to `false`, as in the schema).
* `src/server/db/index.ts` — the shared drizzle/SQLite store becomes the `DB`
  state (row lists plus AUTOINCREMENT counters starting at 1).
* `src/unnamed/part_000` — the module-level DAL functions (`createUser`,
  `getUserById`, …, `deleteUserNotes`) become functions on `DB`; writes
  return the updated `DB`.
* `src/server/storage.ts` — the query helpers (`searchNotes`,
  `getPaginatedNotes`, `getNotesWithUsers`, `getUserWithNotes`) act on the
  same `DB`; the `DrizzleStorage` class acts on a *second* store, because
  `storage.ts` constructs its own separate `new Database(':memory:')`.
  `ProcessState` holds both stores.

The relational engine is modelled from the constraints declared in the
schema DDL: `username` is UNIQUE, `notes.user_id` REFERENCES `users(id)`
ON DELETE CASCADE.  A violated constraint surfaces as a `DbError` carrying
the table and column of the violated constraint, mirroring SQLite's
`UNIQUE constraint failed: users.username` style errors.  `LIKE '%q%'` is
modelled as substring containment (the spec leaves engine case folding
open, §9).  Timestamps (`new Date()`) are an explicit `now : Nat` argument.
-/

structure User where
  id : Nat
  username : String
  password : String
deriving Repr, DecidableEq

structure Note where
  id : Nat
  title : String
  content : String
  isImportant : Bool
  userId : Nat
  createdAt : Nat
deriving Repr, DecidableEq

/-- Insert shape for users (`insertUserSchema` picks `username`, `password`). -/
structure InsertUser where
  username : String
  password : String
deriving Repr, DecidableEq

/-- Insert shape for notes (`insertNoteSchema` picks `title`, `content`,
`isImportant`, `userId`); `isImportant` has schema default `false`. -/
structure InsertNote where
  title : String
  content : String
  isImportant : Bool := false
  userId : Nat
deriving Repr, DecidableEq

/-- `Partial<Omit<InsertUser, 'id'>>` patch objects. -/
structure UserPatch where
  username : Option String := none
  password : Option String := none
deriving Repr, DecidableEq

/-- `Partial<Omit<InsertNote, 'id'>>` patch objects (`createdAt` is not part
of the insert shape, so an update can never touch it). -/
structure NotePatch where
  title : Option String := none
  content : Option String := none
  isImportant : Option Bool := none
  userId : Option Nat := none
deriving Repr, DecidableEq

/-- Storage-layer constraint violations, tagged with the table and column of
the violated constraint (as in SQLite's
`UNIQUE constraint failed: users.username`). -/
inductive DbError where
  | uniqueViolation (tbl col : String)
  | fkViolation (tbl col : String)
deriving Repr, DecidableEq

instance {ε α : Type} [DecidableEq ε] [DecidableEq α] : DecidableEq (Except ε α)
  | .ok a, .ok b =>
      if h : a = b then .isTrue (by rw [h]) else .isFalse (fun hc => by cases hc; exact h rfl)
  | .ok _, .error _ => .isFalse (fun hc => by cases hc)
  | .error _, .ok _ => .isFalse (fun hc => by cases hc)
  | .error e, .error f =>
      if h : e = f then .isTrue (by rw [h]) else .isFalse (fun hc => by cases hc; exact h rfl)

/-- One drizzle/SQLite store: the two tables in rowid order plus the
AUTOINCREMENT counters (SQLite assigns ids 1, 2, …). -/
structure DB where
  users : List User
  notes : List Note
  nextUserId : Nat
  nextNoteId : Nat
deriving Repr, DecidableEq

/-- A freshly created `:memory:` database after the `CREATE TABLE` bootstrap. -/
def emptyDb : DB := { users := [], notes := [], nextUserId := 1, nextNoteId := 1 }

def userExists (db : DB) (uid : Nat) : Bool :=
  db.users.any (fun u => u.id == uid)

/-- Engine-level `db.insert(users).values(user).returning()`: enforces the
schema's `UNIQUE` constraint on `username`, assigns the next id. -/
def insertUserRow (db : DB) (user : InsertUser) : Except DbError (User × DB) :=
  if db.users.any (fun u => u.username == user.username) then
    .error (.uniqueViolation "users" "username")
  else
    let u : User := { id := db.nextUserId, username := user.username, password := user.password }
    .ok (u, { db with users := db.users ++ [u], nextUserId := db.nextUserId + 1 })

/-- Engine-level `db.insert(notes).values({...note, createdAt}).returning()`:
enforces the schema's foreign key `user_id REFERENCES users(id)`. -/
def insertNoteRow (db : DB) (note : InsertNote) (createdAt : Nat) : Except DbError (Note × DB) :=
  if userExists db note.userId then
    let n : Note := { id := db.nextNoteId, title := note.title, content := note.content,
                      isImportant := note.isImportant, userId := note.userId,
                      createdAt := createdAt }
    .ok (n, { db with notes := db.notes ++ [n], nextNoteId := db.nextNoteId + 1 })
  else
    .error (.fkViolation "notes" "user_id")

/-! ## DAL functions of `src/unnamed/part_000` (acting on the shared db) -/

def createUser (db : DB) (user : InsertUser) : Except DbError (User × DB) :=
  insertUserRow db user

def getUserById (db : DB) (id : Nat) : Option User :=
  (db.users.filter (fun u => u.id == id)).head?

def getUserByUsername (db : DB) (username : String) : Option User :=
  (db.users.filter (fun u => u.username == username)).head?

def getAllUsers (db : DB) : List User :=
  db.users

def applyUserPatch (p : UserPatch) (u : User) : User :=
  { u with username := p.username.getD u.username,
           password := p.password.getD u.password }

def updateUser (db : DB) (id : Nat) (p : UserPatch) : Except DbError (Option User × DB) :=
  let updated := db.users.map (fun u => if u.id == id then applyUserPatch p u else u)
  if updated.any (fun u => u.id == id &&
       updated.any (fun v => v.id != id && v.username == u.username)) then
    .error (.uniqueViolation "users" "username")
  else
    .ok ((updated.filter (fun u => u.id == id)).head?, { db with users := updated })

/-- `DELETE FROM users WHERE id = ?`: the engine's declared
`ON DELETE CASCADE` removes the notes referencing a deleted user row
(no application-level cascade code exists in the source). -/
def deleteUser (db : DB) (id : Nat) : Option User × DB :=
  ((db.users.filter (fun u => u.id == id)).head?,
   { db with users := db.users.filter (fun u => u.id != id),
             notes := if db.users.any (fun u => u.id == id)
                      then db.notes.filter (fun n => n.userId != id)
                      else db.notes })

def createNote (db : DB) (note : InsertNote) (now : Nat) : Except DbError (Note × DB) :=
  insertNoteRow db note now

def getNoteById (db : DB) (id : Nat) : Option Note :=
  (db.notes.filter (fun n => n.id == id)).head?

def getAllNotes (db : DB) : List Note :=
  db.notes

def getNotesByUserId (db : DB) (userId : Nat) : List Note :=
  db.notes.filter (fun n => n.userId == userId)

def applyNotePatch (p : NotePatch) (n : Note) : Note :=
  { n with title := p.title.getD n.title,
           content := p.content.getD n.content,
           isImportant := p.isImportant.getD n.isImportant,
           userId := p.userId.getD n.userId }

def updateNote (db : DB) (id : Nat) (p : NotePatch) : Except DbError (Option Note × DB) :=
  let updated := db.notes.map (fun n => if n.id == id then applyNotePatch p n else n)
  if updated.any (fun n => n.id == id && !(userExists db n.userId)) then
    .error (.fkViolation "notes" "user_id")
  else
    .ok ((updated.filter (fun n => n.id == id)).head?, { db with notes := updated })

def deleteNote (db : DB) (id : Nat) : Option Note × DB :=
  ((db.notes.filter (fun n => n.id == id)).head?,
   { db with notes := db.notes.filter (fun n => n.id != id) })

/-- `db.delete(notes).where(eq(notes.userId, userId))` without `.returning()`
returns the engine's run result; its `changes` field is the deleted-row
count. -/
def deleteUserNotes (db : DB) (userId : Nat) : Nat × DB :=
  ((db.notes.filter (fun n => n.userId == userId)).length,
   { db with notes := db.notes.filter (fun n => n.userId != userId) })

/-! ## Query helpers of `src/server/storage.ts` (acting on the same db) -/

/-- `ORDER BY created_at DESC` as a relation on notes. -/
def noteLe (a b : Note) : Prop := b.createdAt ≤ a.createdAt

instance : DecidableRel noteLe := fun a b => Nat.decLe b.createdAt a.createdAt

instance : IsTotal Note noteLe := ⟨fun a b => le_total b.createdAt a.createdAt⟩

instance : IsTrans Note noteLe := ⟨fun _ _ _ h1 h2 => le_trans h2 h1⟩

/-- `like(notes.title, '%q%')`, modelled as substring containment on the
character lists (the spec leaves the engine's case folding open, §9). -/
def titleContains (q : String) (t : String) : Bool :=
  decide (q.data <:+: t.data)

def searchNotes (db : DB) (titleQuery : String) (importantOnly : Bool) : List Note :=
  List.insertionSort noteLe
    (db.notes.filter (fun n =>
      (titleQuery.isEmpty || titleContains titleQuery n.title) &&
      (!importantOnly || n.isImportant)))

/-- `Math.ceil(total / limit)` on naturals (exact for `0 < limit`). -/
def ceilDiv (a b : Nat) : Nat := (a + b - 1) / b

structure Pagination where
  page : Nat
  limit : Nat
  total : Nat
  pages : Nat
deriving Repr, DecidableEq

structure PaginatedNotes where
  data : List Note
  pagination : Pagination
deriving Repr, DecidableEq

def getPaginatedNotes (db : DB) (page : Nat) (limit : Nat) : PaginatedNotes :=
  let offset := (page - 1) * limit
  { data := ((List.insertionSort noteLe db.notes).drop offset).take limit,
    pagination := { page := page, limit := limit, total := db.notes.length,
                    pages := ceilDiv db.notes.length limit } }

/-- The note part of a joined row: `id`, `title`, `content`, `isImportant`,
`createdAt` (the source's select projection omits `userId`). -/
structure NoteView where
  id : Nat
  title : String
  content : String
  isImportant : Bool
  createdAt : Nat
deriving Repr, DecidableEq

/-- The user part of a joined row: only `id` and `username` — the projection
has no `password` field at all. -/
structure UserView where
  id : Nat
  username : String
deriving Repr, DecidableEq

structure NoteWithUser where
  note : NoteView
  user : UserView
deriving Repr, DecidableEq

def mkNoteWithUser (n : Note) (u : User) : NoteWithUser :=
  { note := { id := n.id, title := n.title, content := n.content,
              isImportant := n.isImportant, createdAt := n.createdAt },
    user := { id := u.id, username := u.username } }

def rowLe (a b : NoteWithUser) : Prop := b.note.createdAt ≤ a.note.createdAt

instance : DecidableRel rowLe := fun a b => Nat.decLe b.note.createdAt a.note.createdAt

instance : IsTotal NoteWithUser rowLe :=
  ⟨fun a b => le_total b.note.createdAt a.note.createdAt⟩

instance : IsTrans NoteWithUser rowLe := ⟨fun _ _ _ h1 h2 => le_trans h2 h1⟩

/-- `innerJoin(users, eq(notes.userId, users.id))` with the nested
`{note, user}` projection, `ORDER BY created_at DESC`. -/
def getNotesWithUsers (db : DB) : List NoteWithUser :=
  List.insertionSort rowLe
    (db.notes.flatMap (fun n =>
      (db.users.filter (fun u => n.userId == u.id)).map (fun u => mkNoteWithUser n u)))

structure UserStats where
  totalNotes : Nat
  importantNotes : Nat
deriving Repr, DecidableEq

structure UserWithNotes where
  user : User
  notes : List Note
  stats : UserStats
deriving Repr, DecidableEq

def getUserWithNotes (db : DB) (userId : Nat) : Option UserWithNotes :=
  ((db.users.filter (fun u => u.id == userId)).head?).map (fun u =>
    let userNotes := db.notes.filter (fun n => n.userId == userId)
    { user := u, notes := userNotes,
      stats := { totalNotes := userNotes.length,
                 importantNotes := (userNotes.filter (fun n => n.isImportant)).length } })

/-! ## The two stores of the process

`src/server/db/index.ts` creates one `:memory:` database (used by the DAL
functions and the query helpers above), and `src/server/storage.ts` creates
a *second, separate* `:memory:` database for its `DrizzleStorage` class. -/

structure ProcessState where
  mainDb : DB
  storageDb : DB
deriving Repr, DecidableEq

/-- Process state right after module initialization: both in-memory stores
freshly created and bootstrapped. -/
def initState : ProcessState := { mainDb := emptyDb, storageDb := emptyDb }

/-! ### `DrizzleStorage` methods (`src/server/storage.ts`), acting on the
second store only. -/

def DrizzleStorage.getUserById (s : ProcessState) (id : Nat) : Option User :=
  (s.storageDb.users.filter (fun u => u.id == id)).head?

def DrizzleStorage.getUserByUsername (s : ProcessState) (username : String) : Option User :=
  (s.storageDb.users.filter (fun u => u.username == username)).head?

def DrizzleStorage.getAllUsers (s : ProcessState) : List User :=
  s.storageDb.users

def DrizzleStorage.createUser (s : ProcessState) (user : InsertUser) :
    Except DbError (User × ProcessState) :=
  (insertUserRow s.storageDb user).map (fun r => (r.1, { s with storageDb := r.2 }))

def DrizzleStorage.getNoteById (s : ProcessState) (id : Nat) : Option Note :=
  (s.storageDb.notes.filter (fun n => n.id == id)).head?

def DrizzleStorage.getAllNotes (s : ProcessState) : List Note :=
  s.storageDb.notes

def DrizzleStorage.getNotesByUserId (s : ProcessState) (userId : Nat) : List Note :=
  s.storageDb.notes.filter (fun n => n.userId == userId)

def DrizzleStorage.createNote (s : ProcessState) (note : InsertNote) (now : Nat) :
    Except DbError (Note × ProcessState) :=
  (insertNoteRow s.storageDb note now).map (fun r => (r.1, { s with storageDb := r.2 }))

/-! ## A uniform small-step view of every DAL / helper operation -/

inductive Op where
  | createUser (u : InsertUser)
  | getUserById (id : Nat)
  | getUserByUsername (username : String)
  | getAllUsers
  | updateUser (id : Nat) (p : UserPatch)
  | deleteUser (id : Nat)
  | createNote (n : InsertNote) (now : Nat)
  | getNoteById (id : Nat)
  | getAllNotes
  | getNotesByUserId (uid : Nat)
  | updateNote (id : Nat) (p : NotePatch)
  | deleteNote (id : Nat)
  | deleteUserNotes (uid : Nat)
  | searchNotes (q : String) (imp : Bool)
  | getPaginatedNotes (page limit : Nat)
  | getNotesWithUsers
  | getUserWithNotes (uid : Nat)
deriving Repr, DecidableEq

inductive Output where
  | userOpt : Option User → Output
  | userList : List User → Output
  | noteOpt : Option Note → Output
  | noteList : List Note → Output
  | userExc : Except DbError User → Output
  | noteExc : Except DbError Note → Output
  | userOptExc : Except DbError (Option User) → Output
  | noteOptExc : Except DbError (Option Note) → Output
  | count : Nat → Output
  | paged : PaginatedNotes → Output
  | joined : List NoteWithUser → Output
  | userWith : Option UserWithNotes → Output
deriving Repr

/-- Which operations issue only SELECT statements. -/
def Op.readOnly : Op → Bool
  | .getUserById _ | .getUserByUsername _ | .getAllUsers
  | .getNoteById _ | .getAllNotes | .getNotesByUserId _
  | .searchNotes _ _ | .getPaginatedNotes _ _
  | .getNotesWithUsers | .getUserWithNotes _ => true
  | _ => false

/-- Run one operation against the shared store; a failed statement leaves
the store unchanged. -/
def run (db : DB) (op : Op) : Output × DB :=
  match op with
  | .createUser u =>
      match createUser db u with
      | .ok (r, db') => (.userExc (.ok r), db')
      | .error e => (.userExc (.error e), db)
  | .getUserById id => (.userOpt (getUserById db id), db)
  | .getUserByUsername s => (.userOpt (getUserByUsername db s), db)
  | .getAllUsers => (.userList (getAllUsers db), db)
  | .updateUser id p =>
      match updateUser db id p with
      | .ok (r, db') => (.userOptExc (.ok r), db')
      | .error e => (.userOptExc (.error e), db)
  | .deleteUser id =>
      let r := deleteUser db id
      (.userOpt r.1, r.2)
  | .createNote n now =>
      match createNote db n now with
      | .ok (r, db') => (.noteExc (.ok r), db')
      | .error e => (.noteExc (.error e), db)
  | .getNoteById id => (.noteOpt (getNoteById db id), db)
  | .getAllNotes => (.noteList (getAllNotes db), db)
  | .getNotesByUserId uid => (.noteList (getNotesByUserId db uid), db)
  | .updateNote id p =>
      match updateNote db id p with
      | .ok (r, db') => (.noteOptExc (.ok r), db')
      | .error e => (.noteOptExc (.error e), db)
  | .deleteNote id =>
      let r := deleteNote db id
      (.noteOpt r.1, r.2)
  | .deleteUserNotes uid =>
      let r := deleteUserNotes db uid
      (.count r.1, r.2)
  | .searchNotes q imp => (.noteList (searchNotes db q imp), db)
  | .getPaginatedNotes page limit => (.paged (getPaginatedNotes db page limit), db)
  | .getNotesWithUsers => (.joined (getNotesWithUsers db), db)
  | .getUserWithNotes uid => (.userWith (getUserWithNotes db uid), db)

/-- Well-formedness the engine maintains for reachable stores: primary keys
are unique, `username` is unique, and every note references a live user. -/
def DB.wf (db : DB) : Prop :=
  db.users.Pairwise (fun a b => a.id ≠ b.id) ∧
  db.users.Pairwise (fun a b => a.username ≠ b.username) ∧
  db.notes.Pairwise (fun a b => a.id ≠ b.id) ∧
  ∀ n ∈ db.notes, ∃ u ∈ db.users, u.id = n.userId

/-! ## Concrete stores for witnesses (mirroring the seed data) -/

def sampleDb : DB :=
  { users := [{ id := 1, username := "johndoe", password := "password123" },
              { id := 2, username := "janedoe", password := "password456" }],
    notes := [{ id := 1, title := "Getting Started with Drizzle",
                content := "Drizzle ORM is a TypeScript ORM for SQL databases",
                isImportant := true, userId := 1, createdAt := 10 },
              { id := 2, title := "SQLite Setup",
                content := "SQLite is a lightweight database",
                isImportant := false, userId := 1, createdAt := 20 },
              { id := 3, title := "My First Note",
                content := "This is a test note created by Jane Doe",
                isImportant := false, userId := 2, createdAt := 30 }],
    nextUserId := 3, nextNoteId := 4 }

/-- The note `createNote sampleDb { title := "fresh", ... } 50` creates. -/
def demoNote : Note :=
  { id := 4, title := "fresh", content := "body", isImportant := false,
    userId := 1, createdAt := 50 }

/-- The store after that insert. -/
def demoDb : DB :=
  { sampleDb with notes := sampleDb.notes ++ [demoNote], nextNoteId := 5 }

/-- Process state after `DrizzleStorage.createUser initState ⟨johndoe, …⟩`. -/
def demoStepUser : ProcessState :=
  match DrizzleStorage.createUser initState { username := "johndoe", password := "password123" } with
  | .ok (_, s) => s
  | .error _ => initState

/-- Process state after additionally running `DrizzleStorage.createNote`. -/
def demoStepNote : ProcessState :=
  match DrizzleStorage.createNote demoStepUser
      { title := "Getting Started", content := "note body", isImportant := true, userId := 1 } 100 with
  | .ok (_, s) => s
  | .error _ => demoStepUser

/-! ## Helper lemmas -/

/-- In a list whose entries have pairwise distinct keys, filtering for the
key of a member yields exactly that member. -/
theorem filter_key_singleton {α β : Type} [DecidableEq β] (key : α → β) :
    ∀ (l : List α), l.Pairwise (fun a b => key a ≠ key b) → ∀ x ∈ l,
      l.filter (fun a => key a == key x) = [x] := by
  intro l
  induction l with
  | nil => intro _ x hx; cases hx
  | cons a t ih =>
    intro hp x hx
    obtain ⟨ha, ht⟩ := List.pairwise_cons.mp hp
    rcases List.mem_cons.mp hx with hx | hx
    · subst hx
      rw [List.filter_cons_of_pos (by simp)]
      have : t.filter (fun b => key b == key x) = [] := by
        apply List.filter_eq_nil_iff.mpr
        intro b hb
        simpa using fun h => ha b hb h.symm
      rw [this]
    · rw [List.filter_cons_of_neg (by simpa using ha x hx), ih ht x hx]

theorem getUserById_of_mem (db : DB) (u : User)
    (hid : db.users.Pairwise (fun a b => a.id ≠ b.id)) (hu : u ∈ db.users) :
    getUserById db u.id = some u := by
  unfold getUserById
  rw [filter_key_singleton User.id db.users hid u hu]
  rfl

theorem getUserByUsername_of_mem (db : DB) (u : User)
    (hname : db.users.Pairwise (fun a b => a.username ≠ b.username)) (hu : u ∈ db.users) :
    getUserByUsername db u.username = some u := by
  unfold getUserByUsername
  rw [filter_key_singleton User.username db.users hname u hu]
  rfl

/-- Claim C1: deleting an existing user leaves no notes owned by that user:
after `deleteUser db u.id`, `getNotesByUserId` on the resulting store returns
the empty sequence, whatever the prior number of that user's notes — the
removal comes from the store's declared `ON DELETE CASCADE` foreign key, the
DAL's `deleteUser` only issues the single `DELETE FROM users` statement. -/
theorem deleteUser_cascade_clears_notes (db : DB) (uid : Nat)
    (h : ∃ u ∈ db.users, u.id = uid) :
    getNotesByUserId (deleteUser db uid).2 uid = [] := by
  obtain ⟨u, hu, hid⟩ := h
  have hany : db.users.any (fun v => v.id == uid) = true :=
    List.any_eq_true.mpr ⟨u, hu, by simp [hid]⟩
  unfold deleteUser getNotesByUserId
  simp only [hany, if_true]
  apply List.filter_eq_nil_iff.mpr
  intro n hn
  have h2 := (List.mem_filter.mp hn).2
  simp only [bne_iff_ne, ne_eq] at h2
  simp [h2]

theorem deleteUser_cascade_clears_notes_witness :
    (∃ u ∈ sampleDb.users, u.id = 1) ∧
    getNotesByUserId (deleteUser sampleDb 1).2 1 = [] :=
  ⟨⟨{ id := 1, username := "johndoe", password := "password123" }, by decide, rfl⟩,
   deleteUser_cascade_clears_notes sampleDb 1
     ⟨{ id := 1, username := "johndoe", password := "password123" }, by decide, rfl⟩⟩

/-- Claim C3: inserting a second user with an existing username fails with a
constraint-violation error tagged with the violated table and column
(`users`.`username`), and the first user remains retrievable both by id and
by username. -/
theorem createUser_duplicate_username_rejected (db : DB) (u : User) (req : InsertUser)
    (hwf : db.wf) (hu : u ∈ db.users) (hname : req.username = u.username) :
    createUser db req = .error (.uniqueViolation "users" "username") ∧
    getUserById db u.id = some u ∧
    getUserByUsername db u.username = some u := by
  obtain ⟨hid, huname, _, _⟩ := hwf
  refine ⟨?_, getUserById_of_mem db u hid hu, getUserByUsername_of_mem db u huname hu⟩
  have hany : db.users.any (fun v => v.username == req.username) = true :=
    List.any_eq_true.mpr ⟨u, hu, by simp [hname]⟩
  unfold createUser insertUserRow
  simp [hany]

theorem createUser_duplicate_username_rejected_witness :
    sampleDb.wf ∧
    ({ id := 1, username := "johndoe", password := "password123" } : User) ∈ sampleDb.users ∧
    createUser sampleDb { username := "johndoe", password := "other" } =
      .error (.uniqueViolation "users" "username") ∧
    getUserById sampleDb 1 = some { id := 1, username := "johndoe", password := "password123" } ∧
    getUserByUsername sampleDb "johndoe" =
      some { id := 1, username := "johndoe", password := "password123" } :=
  ⟨by constructor <;> [decide; constructor <;> [decide; constructor <;> [decide; decide]]],
   by decide,
   createUser_duplicate_username_rejected sampleDb
     { id := 1, username := "johndoe", password := "password123" }
     { username := "johndoe", password := "other" }
     (by constructor <;> [decide; constructor <;> [decide; constructor <;> [decide; decide]]])
     (by decide) rfl⟩

/-- Claim C9: `deleteUserNotes userId` removes exactly the notes whose
`userId` matches: users and other users' notes are untouched, every surviving
note is an original one not owned by `userId`, every original note not owned
by `userId` survives, matching notes are gone, and the returned count is the
number of deleted notes. -/
theorem deleteUserNotes_removes_exactly_user_notes (db : DB) (uid : Nat) :
    (deleteUserNotes db uid).2.users = db.users ∧
    (deleteUserNotes db uid).1 = (db.notes.filter (fun n => n.userId == uid)).length ∧
    (∀ m ∈ (deleteUserNotes db uid).2.notes, m ∈ db.notes ∧ m.userId ≠ uid) ∧
    (∀ m ∈ db.notes, m.userId ≠ uid → m ∈ (deleteUserNotes db uid).2.notes) ∧
    (∀ m ∈ db.notes, m.userId = uid → m ∉ (deleteUserNotes db uid).2.notes) := by
  refine ⟨rfl, rfl, ?_, ?_, ?_⟩
  · intro m hm
    have := List.mem_filter.mp hm
    simpa using this
  · intro m hm hne
    exact List.mem_filter.mpr ⟨hm, by simpa using hne⟩
  · intro m _ heq hmem
    have := (List.mem_filter.mp hmem).2
    simp [heq] at this

theorem deleteUserNotes_removes_exactly_user_notes_witness :
    (deleteUserNotes sampleDb 1).2.users = sampleDb.users ∧
    (deleteUserNotes sampleDb 1).1 = 2 ∧
    (∀ m ∈ (deleteUserNotes sampleDb 1).2.notes, m ∈ sampleDb.notes ∧ m.userId ≠ 1) ∧
    (∀ m ∈ sampleDb.notes, m.userId ≠ 1 → m ∈ (deleteUserNotes sampleDb 1).2.notes) ∧
    (∀ m ∈ sampleDb.notes, m.userId = 1 → m ∉ (deleteUserNotes sampleDb 1).2.notes) := by
  have h := deleteUserNotes_removes_exactly_user_notes sampleDb 1
  exact ⟨h.1, by decide, h.2.2.1, h.2.2.2.1, h.2.2.2.2⟩

/-- Claim C10: every read-only operation (`getUserById`, `getUserByUsername`,
`getAllUsers`, `getNoteById`, `getAllNotes`, `getNotesByUserId`,
`searchNotes`, `getPaginatedNotes`, `getNotesWithUsers`, `getUserWithNotes`)
leaves the stored state unchanged. -/
theorem readonly_ops_preserve_state (db : DB) (op : Op) (h : op.readOnly = true) :
    (run db op).2 = db := by
  cases op <;> simp_all [run, Op.readOnly]

theorem readonly_ops_preserve_state_witness :
    (Op.searchNotes "SQLite" false).readOnly = true ∧
    (run sampleDb (Op.searchNotes "SQLite" false)).2 = sampleDb :=
  ⟨by decide, readonly_ops_preserve_state sampleDb (Op.searchNotes "SQLite" false) (by decide)⟩

/-- Claim C6: `getUserWithNotes userId` is `none` exactly when no user has
that id; otherwise it returns that user, the user's notes, and stats computed
from those notes: `totalNotes` is their number and `importantNotes` counts
the ones with `isImportant = true`. -/
theorem getUserWithNotes_stats_computed (db : DB) (uid : Nat) :
    (getUserWithNotes db uid = none ↔ ∀ u ∈ db.users, u.id ≠ uid) ∧
    (∀ r, getUserWithNotes db uid = some r →
       r.user ∈ db.users ∧ r.user.id = uid ∧
       r.notes = db.notes.filter (fun n => n.userId == uid) ∧
       r.stats.totalNotes = r.notes.length ∧
       r.stats.importantNotes = (r.notes.filter (fun n => n.isImportant)).length) := by
  constructor
  · unfold getUserWithNotes
    rw [Option.map_eq_none']
    rw [List.head?_eq_none_iff]
    rw [List.filter_eq_nil_iff]
    constructor
    · intro h u hu
      have := h u hu
      simpa using this
    · intro h u hu
      simpa using h u hu
  · intro r hr
    unfold getUserWithNotes at hr
    rw [Option.map_eq_some'] at hr
    obtain ⟨u, hu, hru⟩ := hr
    have humem : u ∈ db.users.filter (fun v => v.id == uid) := by
      cases hfl : db.users.filter (fun v => v.id == uid) with
      | nil => rw [hfl] at hu; cases hu
      | cons a t => rw [hfl] at hu; simp at hu; subst hu; exact List.mem_cons_self a t
    have hmem := List.mem_filter.mp humem
    subst hru
    refine ⟨hmem.1, by simpa using hmem.2, rfl, rfl, rfl⟩

theorem getUserWithNotes_stats_computed_witness :
    (getUserWithNotes sampleDb 7 = none ↔ ∀ u ∈ sampleDb.users, u.id ≠ 7) ∧
    (∀ r, getUserWithNotes sampleDb 7 = some r →
       r.user ∈ sampleDb.users ∧ r.user.id = 7 ∧
       r.notes = sampleDb.notes.filter (fun n => n.userId == 7) ∧
       r.stats.totalNotes = r.notes.length ∧
       r.stats.importantNotes = (r.notes.filter (fun n => n.isImportant)).length) :=
  getUserWithNotes_stats_computed sampleDb 7

/-- With no active filter (`searchNotes "" false`), the filter condition is
identically true, so the result is a permutation of the whole notes table. -/
theorem searchNotes_all_perm (db : DB) : (searchNotes db "" false).Perm db.notes := by
  unfold searchNotes
  have hcond : (fun n : Note =>
      (("" : String).isEmpty || titleContains "" n.title) && (!false || n.isImportant)) =
      fun _ => true := by
    funext n; rfl
  rw [hcond, List.filter_true]
  exact List.perm_insertionSort noteLe db.notes

/-- Claim C5: `searchNotes titleQuery importantOnly` returns exactly the notes
satisfying the conjunction of the active filters — title contains the query
as a substring when the query is non-empty, `isImportant = true` when
`importantOnly` — always ordered by `createdAt` descending, and
`searchNotes "" false` returns every note. -/
theorem searchNotes_filters_and_orders (db : DB) (q : String) (imp : Bool) :
    (∀ n : Note, n ∈ searchNotes db q imp ↔
       n ∈ db.notes ∧ (q ≠ "" → q.data <:+: n.title.data) ∧
       (imp = true → n.isImportant = true)) ∧
    List.Sorted noteLe (searchNotes db q imp) ∧
    (searchNotes db "" false).Perm db.notes := by
  refine ⟨?_, List.sorted_insertionSort noteLe _, searchNotes_all_perm db⟩
  intro n
  unfold searchNotes
  rw [(List.perm_insertionSort noteLe _).mem_iff, List.mem_filter]
  simp only [Bool.and_eq_true, Bool.or_eq_true, Bool.not_eq_true',
    titleContains, decide_eq_true_eq]
  constructor
  · rintro ⟨hmem, ⟨hq, himp⟩⟩
    refine ⟨hmem, ?_, ?_⟩
    · intro hne
      rcases hq with h | h
      · exact absurd ((String.isEmpty_iff q).mp h) hne
      · exact h
    · intro him
      rcases himp with h | h
      · rw [him] at h; cases h
      · exact h
  · rintro ⟨hmem, hq, himp⟩
    refine ⟨hmem, ?_, ?_⟩
    · by_cases hne : q = ""
      · exact Or.inl ((String.isEmpty_iff q).mpr hne)
      · exact Or.inr (hq hne)
    · cases imp with
      | false => exact Or.inl rfl
      | true => exact Or.inr (himp rfl)

theorem searchNotes_filters_and_orders_witness :
    (searchNotes sampleDb "" false).Perm sampleDb.notes :=
  (searchNotes_filters_and_orders sampleDb "" false).2.2

/-- Claim C7: `getNotesWithUsers` is the inner join of notes and users on
`Note.userId = User.id` — a row appears exactly when a note and a matching
user exist — ordered by `createdAt` descending; each row is a nested
`{note, user}` pair whose user part is only `{id, username}` (the `UserView`
projection has no password field at all). -/
theorem getNotesWithUsers_inner_join (db : DB) :
    (∀ row : NoteWithUser, row ∈ getNotesWithUsers db ↔
       ∃ n ∈ db.notes, ∃ u ∈ db.users, n.userId = u.id ∧ row = mkNoteWithUser n u) ∧
    List.Sorted rowLe (getNotesWithUsers db) := by
  refine ⟨?_, List.sorted_insertionSort rowLe _⟩
  intro row
  unfold getNotesWithUsers
  rw [(List.perm_insertionSort rowLe _).mem_iff]
  simp only [List.mem_flatMap, List.mem_map, List.mem_filter, beq_iff_eq]
  constructor
  · rintro ⟨n, hn, u, ⟨hu, hid⟩, hrow⟩
    exact ⟨n, hn, u, hu, hid, hrow.symm⟩
  · rintro ⟨n, hn, u, hu, hid, hrow⟩
    exact ⟨n, hn, u, ⟨hu, hid⟩, hrow.symm⟩

theorem getNotesWithUsers_inner_join_witness :
    List.Sorted rowLe (getNotesWithUsers sampleDb) :=
  (getNotesWithUsers_inner_join sampleDb).2

/-- Claim C8: `updateNote n.id {isImportant: true}` on a well-formed store
changes only the `isImportant` field of note `n`: the returned row keeps
`n`'s `title`, `content`, `userId`, `createdAt`; the users table is
untouched; and every other note survives unchanged (the new notes table is
the pointwise map that rewrites only the row with id `n.id`). -/
theorem updateNote_isImportant_frame (db : DB) (n : Note) (hwf : db.wf) (hn : n ∈ db.notes) :
    updateNote db n.id { isImportant := some true } =
      .ok (some { n with isImportant := true },
        { db with notes := db.notes.map (fun m => if m.id == n.id then { m with isImportant := true } else m) }) ∧
    (∀ m ∈ db.notes, m.id ≠ n.id →
       m ∈ db.notes.map (fun m2 => if m2.id == n.id then { m2 with isImportant := true } else m2)) := by
  obtain ⟨_, _, hnid, hfk⟩ := hwf
  have hpatch : ∀ m : Note,
      applyNotePatch { isImportant := some true } m = { m with isImportant := true } :=
    fun _ => rfl
  constructor
  · have hcond : (db.notes.map
        (fun m => if m.id == n.id then applyNotePatch { isImportant := some true } m else m)).any
          (fun m => m.id == n.id && !(userExists db m.userId)) = false := by
      rw [List.any_eq_false]
      intro m2 hm2
      obtain ⟨m, hm, rfl⟩ := List.mem_map.mp hm2
      by_cases hc : m.id = n.id
      · obtain ⟨u, hu, huid⟩ := hfk m hm
        have hex : userExists db m.userId = true :=
          List.any_eq_true.mpr ⟨u, hu, by simp [huid]⟩
        simp [hc, hpatch, hex]
      · simp [hc]
    simp only [updateNote]
    rw [hcond]
    simp only [Bool.false_eq_true, if_false, hpatch]
    have hfid : ∀ m : Note,
        (if m.id == n.id then { m with isImportant := true } else m).id = m.id := by
      intro m; split <;> rfl
    rw [List.filter_map]
    have hcomp : ((fun m : Note => m.id == n.id) ∘
        (fun m : Note => if m.id == n.id then { m with isImportant := true } else m)) =
        fun m : Note => m.id == n.id := by
      funext m
      simp only [Function.comp_apply, hfid]
    rw [hcomp, filter_key_singleton Note.id db.notes hnid n hn]
    simp
  · intro m hm hmne
    exact List.mem_map.mpr ⟨m, hm, by simp [hmne]⟩

theorem updateNote_isImportant_frame_witness :
    sampleDb.wf ∧
    ({ id := 2, title := "SQLite Setup", content := "SQLite is a lightweight database",
       isImportant := false, userId := 1, createdAt := 20 } : Note) ∈ sampleDb.notes ∧
    updateNote sampleDb 2 { isImportant := some true } =
      .ok (some { id := 2, title := "SQLite Setup", content := "SQLite is a lightweight database",
                  isImportant := true, userId := 1, createdAt := 20 },
        { sampleDb with notes := sampleDb.notes.map (fun m => if m.id == 2 then { m with isImportant := true } else m) }) := by
  refine ⟨⟨by decide, by decide, by decide, by decide⟩, by decide, ?_⟩
  have h := (updateNote_isImportant_frame sampleDb
    { id := 2, title := "SQLite Setup", content := "SQLite is a lightweight database",
      isImportant := false, userId := 1, createdAt := 20 } ⟨by decide, by decide, by decide, by decide⟩ (by decide)).1
  exact h

/-- A successful engine-level note insert appends the created row to the
notes table of that store, leaves its users table unchanged, stamps the
request's `userId` on the row, and can only have passed the foreign-key
check. -/
theorem insertNoteRow_ok (db : DB) (req : InsertNote) (t : Nat) (r : Note) (db2 : DB)
    (h : insertNoteRow db req t = .ok (r, db2)) :
    db2.notes = db.notes ++ [r] ∧ db2.users = db.users ∧
    r.userId = req.userId ∧ userExists db req.userId = true := by
  unfold insertNoteRow at h
  split at h
  · rename_i hc
    simp only [Except.ok.injEq, Prod.mk.injEq] at h
    obtain ⟨hr, hdb⟩ := h
    subst hr
    subst hdb
    exact ⟨rfl, rfl, rfl, hc⟩
  · cases h

/-- A successful engine-level user insert appends the created row to the
users table of that store, leaves its notes table unchanged, assigns the
next id, stores the requested username, and can only have passed the
uniqueness check. -/
theorem insertUserRow_ok (db : DB) (req : InsertUser) (u : User) (db2 : DB)
    (h : insertUserRow db req = .ok (u, db2)) :
    db2.users = db.users ++ [u] ∧ db2.notes = db.notes ∧
    u.id = db.nextUserId ∧ u.username = req.username ∧
    db.users.any (fun v => v.username == req.username) = false := by
  unfold insertUserRow at h
  split at h
  · cases h
  · rename_i hc
    simp only [Except.ok.injEq, Prod.mk.injEq] at h
    obtain ⟨hr, hdb⟩ := h
    subst hr
    subst hdb
    refine ⟨rfl, rfl, rfl, rfl, ?_⟩
    simpa using hc

theorem mem_of_head?_eq_some {α : Type} {l : List α} {a : α} (h : l.head? = some a) :
    a ∈ l := by
  cases l with
  | nil => cases h
  | cons x t =>
    rw [List.head?_cons] at h
    injection h with h
    subst h
    exact List.mem_cons_self x t

/-- A note present in the shared store whose owner exists is returned by
every note-reading operation of the store: `getAllNotes`,
`getNotesByUserId`, `searchNotes`, `getPaginatedNotes`,
`getNotesWithUsers` (joined with its owner) and `getUserWithNotes`. -/
theorem note_visible_everywhere (db2 : DB) (r : Note) (hmem : r ∈ db2.notes)
    (howner : ∃ u ∈ db2.users, u.id = r.userId) :
    r ∈ getAllNotes db2 ∧
    r ∈ getNotesByUserId db2 r.userId ∧
    r ∈ searchNotes db2 "" false ∧
    r ∈ (getPaginatedNotes db2 1 db2.notes.length).data ∧
    (∃ u ∈ getAllUsers db2, r.userId = u.id ∧
       mkNoteWithUser r u ∈ getNotesWithUsers db2) ∧
    (∃ w, getUserWithNotes db2 r.userId = some w ∧ r ∈ w.notes) := by
  obtain ⟨u, hu, huid⟩ := howner
  refine ⟨hmem, List.mem_filter.mpr ⟨hmem, by simp⟩,
    ((searchNotes_all_perm db2).mem_iff).mpr hmem, ?_, ?_, ?_⟩
  · have hslen : (List.insertionSort noteLe db2.notes).length = db2.notes.length :=
      (List.perm_insertionSort noteLe db2.notes).length_eq
    have hdata : (getPaginatedNotes db2 1 db2.notes.length).data =
        List.insertionSort noteLe db2.notes := by
      show ((List.insertionSort noteLe db2.notes).drop ((1 - 1) * db2.notes.length)).take
          db2.notes.length = List.insertionSort noteLe db2.notes
      rw [show (1 - 1) * db2.notes.length = 0 from by simp, List.drop_zero, ← hslen,
        List.take_length]
    rw [hdata]
    exact ((List.perm_insertionSort noteLe db2.notes).mem_iff).mpr hmem
  · refine ⟨u, hu, huid.symm, ?_⟩
    have hrow : mkNoteWithUser r u ∈ db2.notes.flatMap (fun n =>
        (db2.users.filter (fun v => n.userId == v.id)).map (fun v => mkNoteWithUser n v)) :=
      List.mem_flatMap.mpr
        ⟨r, hmem, List.mem_map.mpr ⟨u, List.mem_filter.mpr ⟨hu, by simp [huid]⟩, rfl⟩⟩
    exact ((List.perm_insertionSort rowLe _).mem_iff).mpr hrow
  · have hne : db2.users.filter (fun v => v.id == r.userId) ≠ [] := by
      intro hnil
      rw [List.filter_eq_nil_iff] at hnil
      exact hnil u hu (by simp [huid])
    cases hh : (db2.users.filter (fun v => v.id == r.userId)).head? with
    | none => exact absurd (List.head?_eq_none_iff.mp hh) hne
    | some u0 =>
      refine ⟨{ user := u0,
                notes := db2.notes.filter (fun n => n.userId == r.userId),
                stats := { totalNotes := (db2.notes.filter (fun n => n.userId == r.userId)).length,
                           importantNotes := ((db2.notes.filter (fun n => n.userId == r.userId)).filter
                             (fun n => n.isImportant)).length } }, ?_, ?_⟩
      · unfold getUserWithNotes
        rw [hh]
        rfl
      · exact List.mem_filter.mpr ⟨hmem, by simp⟩

/-- Claim C2 counterexample: writes through the `DrizzleStorage` methods are
*not* visible to the query helpers.  `storage.ts` opens its own second
`:memory:` database, so after `DrizzleStorage.createNote` succeeds, the
created note is absent from `searchNotes` / `getAllNotes`, which read the
`db/index.ts` store. -/
theorem drizzleStorage_write_invisible_to_helpers :
    DrizzleStorage.createNote demoStepUser
        { title := "Getting Started", content := "note body", isImportant := true, userId := 1 } 100 =
      .ok ({ id := 1, title := "Getting Started", content := "note body", isImportant := true,
             userId := 1, createdAt := 100 }, demoStepNote) ∧
    ({ id := 1, title := "Getting Started", content := "note body", isImportant := true,
       userId := 1, createdAt := 100 } : Note) ∉ searchNotes demoStepNote.mainDb "" false ∧
    searchNotes demoStepNote.mainDb "" false = [] ∧
    getAllNotes demoStepNote.mainDb = [] :=
  ⟨by decide, by decide, by decide, by decide⟩

/-- Claim C2 (amended): the `part_000` DAL functions and the query helpers
share the one `db/index.ts` store and every write through them is visible
to every subsequent read through them — a created note appears in
`getAllNotes`, `getNotesByUserId`, `searchNotes`, `getPaginatedNotes`,
`getNotesWithUsers` (joined with its owner) and `getUserWithNotes`; a
created user appears in `getAllUsers`, `getUserByUsername` and (ids being
fresh, as AUTOINCREMENT guarantees) `getUserById`; after an update the
by-id read returns exactly the update's result and an updated note is
again visible to all six note reads; deleted users, notes and bulk-deleted
notes are gone from the reads — while the `DrizzleStorage` class writes
only its own second store: its `createUser` and `createNote` are visible
to subsequent `DrizzleStorage` reads but leave the helpers' store
(`mainDb`) unchanged. -/
theorem store_visibility_split :
    (∀ (db : DB) (req : InsertNote) (now : Nat) (r : Note) (db2 : DB),
       createNote db req now = .ok (r, db2) →
         r ∈ getAllNotes db2 ∧
         r ∈ getNotesByUserId db2 r.userId ∧
         r ∈ searchNotes db2 "" false ∧
         r ∈ (getPaginatedNotes db2 1 db2.notes.length).data ∧
         (∃ u ∈ getAllUsers db2, r.userId = u.id ∧
            mkNoteWithUser r u ∈ getNotesWithUsers db2) ∧
         (∃ w, getUserWithNotes db2 r.userId = some w ∧ r ∈ w.notes)) ∧
    (∀ (db : DB) (req : InsertUser) (u : User) (db2 : DB),
       createUser db req = .ok (u, db2) →
         u ∈ getAllUsers db2 ∧
         getUserByUsername db2 u.username = some u ∧
         ((∀ v ∈ db.users, v.id < db.nextUserId) → getUserById db2 u.id = some u)) ∧
    (∀ (db : DB) (id : Nat) (p : NotePatch) (res : Option Note) (db2 : DB),
       updateNote db id p = .ok (res, db2) →
         getNoteById db2 id = res ∧
         (∀ r, res = some r →
            r ∈ getAllNotes db2 ∧
            r ∈ getNotesByUserId db2 r.userId ∧
            r ∈ searchNotes db2 "" false ∧
            r ∈ (getPaginatedNotes db2 1 db2.notes.length).data ∧
            (∃ u ∈ getAllUsers db2, r.userId = u.id ∧
               mkNoteWithUser r u ∈ getNotesWithUsers db2) ∧
            (∃ w, getUserWithNotes db2 r.userId = some w ∧ r ∈ w.notes))) ∧
    (∀ (db : DB) (id : Nat) (p : UserPatch) (res : Option User) (db2 : DB),
       updateUser db id p = .ok (res, db2) →
         getUserById db2 id = res ∧ (∀ u, res = some u → u ∈ getAllUsers db2)) ∧
    (∀ (db : DB) (id : Nat),
       getUserById (deleteUser db id).2 id = none ∧
       (∀ v ∈ getAllUsers (deleteUser db id).2, v.id ≠ id)) ∧
    (∀ (db : DB) (id : Nat),
       getNoteById (deleteNote db id).2 id = none ∧
       (∀ m ∈ getAllNotes (deleteNote db id).2, m.id ≠ id)) ∧
    (∀ (db : DB) (uid : Nat),
       getNotesByUserId (deleteUserNotes db uid).2 uid = [] ∧
       (∀ m ∈ searchNotes (deleteUserNotes db uid).2 "" false, m.userId ≠ uid)) ∧
    (∀ (s : ProcessState) (req : InsertUser) (u : User) (s2 : ProcessState),
       DrizzleStorage.createUser s req = .ok (u, s2) →
         u ∈ DrizzleStorage.getAllUsers s2 ∧
         DrizzleStorage.getUserByUsername s2 u.username = some u ∧
         s2.mainDb = s.mainDb) ∧
    (∀ (s : ProcessState) (req : InsertNote) (now : Nat) (r : Note) (s2 : ProcessState),
       DrizzleStorage.createNote s req now = .ok (r, s2) →
         r ∈ DrizzleStorage.getAllNotes s2 ∧
         r ∈ DrizzleStorage.getNotesByUserId s2 r.userId ∧
         s2.mainDb = s.mainDb) := by
  refine ⟨?_, ?_, ?_, ?_, ?_, ?_, ?_, ?_, ?_⟩
  · intro db req now r db2 h
    obtain ⟨hnotes, husers, hruid, hue⟩ := insertNoteRow_ok db req now r db2 h
    have hmem : r ∈ db2.notes := by
      rw [hnotes]
      exact List.mem_append_right _ (List.mem_singleton_self r)
    obtain ⟨u, hu, huid⟩ := List.any_eq_true.mp hue
    refine note_visible_everywhere db2 r hmem ⟨u, ?_, ?_⟩
    · rw [husers]; exact hu
    · have : u.id = req.userId := by simpa using huid
      rw [this, hruid]
  · intro db req u db2 h
    obtain ⟨husers, _, huid, huname, hany⟩ := insertUserRow_ok db req u db2 h
    refine ⟨?_, ?_, ?_⟩
    · show u ∈ db2.users
      rw [husers]
      exact List.mem_append_right _ (List.mem_singleton_self u)
    · show (db2.users.filter (fun v => v.username == u.username)).head? = some u
      have hfnil : db.users.filter (fun v => v.username == u.username) = [] := by
        apply List.filter_eq_nil_iff.mpr
        intro v hv
        have := List.any_eq_false.mp hany v hv
        rw [huname]
        exact this
      rw [husers, List.filter_append, hfnil]
      simp
    · intro hfr
      show (db2.users.filter (fun v => v.id == u.id)).head? = some u
      have hfnil : db.users.filter (fun v => v.id == u.id) = [] := by
        apply List.filter_eq_nil_iff.mpr
        intro v hv
        have hlt := hfr v hv
        rw [huid]
        simp only [beq_iff_eq]
        omega
      rw [husers, List.filter_append, hfnil]
      simp
  · intro db id p res db2 h
    simp only [updateNote] at h
    split at h
    · cases h
    · rename_i hcheck
      simp only [Except.ok.injEq, Prod.mk.injEq] at h
      obtain ⟨hres, hdb⟩ := h
      subst hdb
      subst hres
      refine ⟨rfl, ?_⟩
      intro r hr
      have hrfil := mem_of_head?_eq_some hr
      have hrmem := (List.mem_filter.mp hrfil).1
      have hrid : (r.id == id) = true := (List.mem_filter.mp hrfil).2
      have hfk : userExists db r.userId = true := by
        have h2 := List.any_eq_false.mp (Bool.eq_false_iff.mpr hcheck) r hrmem
        cases hue : userExists db r.userId with
        | true => rfl
        | false =>
          exact absurd (show (r.id == id && !userExists db r.userId) = true by
            rw [hrid, hue]; rfl) h2
      obtain ⟨u, hu, huid⟩ := List.any_eq_true.mp hfk
      exact note_visible_everywhere _ r hrmem ⟨u, hu, by simpa using huid⟩
  · intro db id p res db2 h
    simp only [updateUser] at h
    split at h
    · cases h
    · simp only [Except.ok.injEq, Prod.mk.injEq] at h
      obtain ⟨hres, hdb⟩ := h
      subst hdb
      subst hres
      refine ⟨rfl, ?_⟩
      intro u hu
      exact List.mem_of_mem_filter (mem_of_head?_eq_some hu)
  · intro db id
    constructor
    · show ((db.users.filter (fun v => v.id != id)).filter (fun v => v.id == id)).head? = none
      rw [List.head?_eq_none_iff]
      apply List.filter_eq_nil_iff.mpr
      intro v hv
      have hne := (List.mem_filter.mp hv).2
      simp only [bne_iff_ne, ne_eq] at hne
      simp [hne]
    · intro v hv
      have hv2 : v ∈ db.users.filter (fun w => w.id != id) := hv
      have := (List.mem_filter.mp hv2).2
      simpa using this
  · intro db id
    constructor
    · show ((db.notes.filter (fun n => n.id != id)).filter (fun n => n.id == id)).head? = none
      rw [List.head?_eq_none_iff]
      apply List.filter_eq_nil_iff.mpr
      intro m hm
      have hne := (List.mem_filter.mp hm).2
      simp only [bne_iff_ne, ne_eq] at hne
      simp [hne]
    · intro m hm
      have hm2 : m ∈ db.notes.filter (fun n => n.id != id) := hm
      have := (List.mem_filter.mp hm2).2
      simpa using this
  · intro db uid
    constructor
    · show (db.notes.filter (fun n => n.userId != uid)).filter (fun n => n.userId == uid) = []
      apply List.filter_eq_nil_iff.mpr
      intro m hm
      have hne := (List.mem_filter.mp hm).2
      simp only [bne_iff_ne, ne_eq] at hne
      simp [hne]
    · intro m hm
      have hm2 : m ∈ (deleteUserNotes db uid).2.notes :=
        ((searchNotes_all_perm (deleteUserNotes db uid).2).mem_iff).mp hm
      have hm3 : m ∈ db.notes.filter (fun n => n.userId != uid) := hm2
      have := (List.mem_filter.mp hm3).2
      simpa using this
  · intro s req u s2 h
    unfold DrizzleStorage.createUser at h
    cases hi : insertUserRow s.storageDb req with
    | error e => rw [hi] at h; cases h
    | ok pr =>
      obtain ⟨u0, db0⟩ := pr
      rw [hi] at h
      simp only [Except.map, Except.ok.injEq, Prod.mk.injEq] at h
      obtain ⟨hr, hs⟩ := h
      subst hs
      subst hr
      obtain ⟨husers, _, _, huname, hany⟩ := insertUserRow_ok s.storageDb req u0 db0 hi
      refine ⟨?_, ?_, rfl⟩
      · show u0 ∈ db0.users
        rw [husers]
        exact List.mem_append_right _ (List.mem_singleton_self u0)
      · show (db0.users.filter (fun v => v.username == u0.username)).head? = some u0
        have hfnil : s.storageDb.users.filter (fun v => v.username == u0.username) = [] := by
          apply List.filter_eq_nil_iff.mpr
          intro v hv
          have := List.any_eq_false.mp hany v hv
          rw [huname]
          exact this
        rw [husers, List.filter_append, hfnil]
        simp
  · intro s req now r s2 h
    unfold DrizzleStorage.createNote at h
    cases hi : insertNoteRow s.storageDb req now with
    | error e => rw [hi] at h; cases h
    | ok pr =>
      obtain ⟨r0, db0⟩ := pr
      rw [hi] at h
      simp only [Except.map, Except.ok.injEq, Prod.mk.injEq] at h
      obtain ⟨hr, hs⟩ := h
      subst hs
      subst hr
      obtain ⟨hnotes, _, _, _⟩ := insertNoteRow_ok s.storageDb req now r0 db0 hi
      have hmem : r0 ∈ db0.notes := by
        rw [hnotes]
        exact List.mem_append_right _ (List.mem_singleton_self r0)
      refine ⟨hmem, ?_, rfl⟩
      show r0 ∈ db0.notes.filter (fun n => n.userId == r0.userId)
      exact List.mem_filter.mpr ⟨hmem, by simp⟩

theorem store_visibility_split_witness :
    (demoNote ∈ getAllNotes demoDb ∧
     demoNote ∈ getNotesByUserId demoDb demoNote.userId ∧
     demoNote ∈ searchNotes demoDb "" false ∧
     demoNote ∈ (getPaginatedNotes demoDb 1 demoDb.notes.length).data ∧
     (∃ u ∈ getAllUsers demoDb, demoNote.userId = u.id ∧
        mkNoteWithUser demoNote u ∈ getNotesWithUsers demoDb) ∧
     (∃ w, getUserWithNotes demoDb demoNote.userId = some w ∧ demoNote ∈ w.notes)) ∧
    ({ id := 1, title := "Getting Started", content := "note body", isImportant := true,
       userId := 1, createdAt := 100 } : Note) ∈ DrizzleStorage.getAllNotes demoStepNote ∧
    demoStepNote.mainDb = demoStepUser.mainDb :=
  ⟨store_visibility_split.1 sampleDb
      { title := "fresh", content := "body", isImportant := false, userId := 1 } 50
      demoNote demoDb (by decide),
   (store_visibility_split.2.2.2.2.2.2.2.2 demoStepUser
      { title := "Getting Started", content := "note body", isImportant := true, userId := 1 } 100
      { id := 1, title := "Getting Started", content := "note body", isImportant := true,
        userId := 1, createdAt := 100 } demoStepNote (by decide)).1,
   (store_visibility_split.2.2.2.2.2.2.2.2 demoStepUser
      { title := "Getting Started", content := "note body", isImportant := true, userId := 1 } 100
      { id := 1, title := "Getting Started", content := "note body", isImportant := true,
        userId := 1, createdAt := 100 } demoStepNote (by decide)).2.2⟩

/-- `n ≤ ceil(n/limit) * limit` for positive `limit`. -/
theorem le_ceilDiv_mul (n limit : Nat) (hl : 0 < limit) : n ≤ ceilDiv n limit * limit := by
  unfold ceilDiv
  rw [Nat.mul_comm]
  have h1 := Nat.div_add_mod (n + limit - 1) limit
  have h2 : (n + limit - 1) % limit < limit := Nat.mod_lt _ hl
  omega

/-- `(ceil(n/limit) - 1) * limit < n` for positive `limit` and `n`:
`ceilDiv` is the least page count covering all `n` rows. -/
theorem ceilDiv_pred_mul_lt (n limit : Nat) (hl : 0 < limit) (hn : 0 < n) :
    (ceilDiv n limit - 1) * limit < n := by
  unfold ceilDiv
  rw [Nat.sub_mul, Nat.one_mul, Nat.mul_comm]
  have h1 := Nat.div_add_mod (n + limit - 1) limit
  have h2 : (n + limit - 1) % limit < limit := Nat.mod_lt _ hl
  omega

/-- Chopping a list into `p` consecutive chunks of size `limit` accounts for
every element once, provided `p * limit` covers the whole list. -/
theorem sum_take_drop_lengths {α : Type} (limit : Nat) :
    ∀ (p : Nat) (l : List α), l.length ≤ p * limit →
      ((List.range p).map (fun i => ((l.drop (i * limit)).take limit).length)).sum = l.length := by
  intro p
  induction p with
  | zero =>
    intro l h
    simp only [Nat.zero_mul, Nat.le_zero] at h
    simp [h]
  | succ p ih =>
    intro l h
    rw [List.range_succ_eq_map, List.map_cons, List.map_map, List.sum_cons]
    have htail :
        (List.range p).map ((fun i => ((l.drop (i * limit)).take limit).length) ∘ Nat.succ) =
        (List.range p).map (fun i => (((l.drop limit).drop (i * limit)).take limit).length) := by
      apply List.map_congr_left
      intro i _
      simp only [Function.comp_apply]
      rw [List.drop_drop, Nat.succ_mul, Nat.add_comm]
    have hs : (p + 1) * limit = p * limit + limit := Nat.succ_mul p limit
    have hcover : (l.drop limit).length ≤ p * limit := by
      rw [List.length_drop]
      omega
    rw [htail, ih (l.drop limit) hcover]
    rw [Nat.zero_mul, List.drop_zero, List.length_take, List.length_drop]
    omega

/-- Claim C4: `getPaginatedNotes page limit` (1-indexed page, `limit > 0`)
returns the `createdAt`-descending ordering of the notes sliced at offset
`(page-1)*limit`, with metadata `page`, `limit`, `total = N`,
`pages = ceil(N/limit)` (characterised: `pages*limit` covers `N` and is
least such); the data lengths over pages `1..pages` sum to `N`; and a page
beyond the last yields an empty data sequence (with the same `total = N`
metadata), not an error. -/
theorem getPaginatedNotes_pagination (db : DB) (page limit : Nat)
    (hl : 0 < limit) (hp : 1 ≤ page) :
    (getPaginatedNotes db page limit).pagination.page = page ∧
    (getPaginatedNotes db page limit).pagination.limit = limit ∧
    (getPaginatedNotes db page limit).pagination.total = db.notes.length ∧
    (getPaginatedNotes db page limit).pagination.pages = ceilDiv db.notes.length limit ∧
    db.notes.length ≤ (getPaginatedNotes db page limit).pagination.pages * limit ∧
    (0 < db.notes.length →
       ((getPaginatedNotes db page limit).pagination.pages - 1) * limit < db.notes.length) ∧
    ((List.range (getPaginatedNotes db page limit).pagination.pages).map
        (fun i => (getPaginatedNotes db (i + 1) limit).data.length)).sum = db.notes.length ∧
    List.Sorted noteLe (getPaginatedNotes db page limit).data ∧
    (∃ s, s.Perm db.notes ∧ List.Sorted noteLe s ∧
       (getPaginatedNotes db page limit).data = (s.drop ((page - 1) * limit)).take limit) ∧
    ((getPaginatedNotes db page limit).pagination.pages < page →
       (getPaginatedNotes db page limit).data = []) := by
  have hSperm : (List.insertionSort noteLe db.notes).Perm db.notes :=
    List.perm_insertionSort noteLe db.notes
  have hSlen : (List.insertionSort noteLe db.notes).length = db.notes.length := hSperm.length_eq
  have hSsorted := List.sorted_insertionSort noteLe db.notes
  refine ⟨rfl, rfl, rfl, rfl, ?_, ?_, ?_, ?_, ?_, ?_⟩
  · exact le_ceilDiv_mul db.notes.length limit hl
  · exact fun hn => ceilDiv_pred_mul_lt db.notes.length limit hl hn
  · have hsum := sum_take_drop_lengths limit (ceilDiv db.notes.length limit)
      (List.insertionSort noteLe db.notes) (by rw [hSlen]; exact le_ceilDiv_mul _ _ hl)
    rw [hSlen] at hsum
    exact hsum
  · exact List.Pairwise.sublist ((List.take_sublist _ _).trans (List.drop_sublist _ _)) hSsorted
  · exact ⟨List.insertionSort noteLe db.notes, hSperm, hSsorted, rfl⟩
  · intro hgt
    have hgt2 : ceilDiv db.notes.length limit < page := hgt
    have h1 : ceilDiv db.notes.length limit ≤ page - 1 := by omega
    have h2 : db.notes.length ≤ (page - 1) * limit :=
      le_trans (le_ceilDiv_mul db.notes.length limit hl) (Nat.mul_le_mul_right limit h1)
    show ((List.insertionSort noteLe db.notes).drop ((page - 1) * limit)).take limit = []
    rw [List.drop_eq_nil_of_le (by rw [hSlen]; exact h2), List.take_nil]

theorem getPaginatedNotes_pagination_witness :
    0 < 2 ∧ 1 ≤ 1 ∧
    ((getPaginatedNotes sampleDb 1 2).pagination.page = 1 ∧
     (getPaginatedNotes sampleDb 1 2).pagination.limit = 2 ∧
     (getPaginatedNotes sampleDb 1 2).pagination.total = sampleDb.notes.length ∧
     (getPaginatedNotes sampleDb 1 2).pagination.pages = ceilDiv sampleDb.notes.length 2 ∧
     sampleDb.notes.length ≤ (getPaginatedNotes sampleDb 1 2).pagination.pages * 2 ∧
     (0 < sampleDb.notes.length →
        ((getPaginatedNotes sampleDb 1 2).pagination.pages - 1) * 2 < sampleDb.notes.length) ∧
     ((List.range (getPaginatedNotes sampleDb 1 2).pagination.pages).map
         (fun i => (getPaginatedNotes sampleDb (i + 1) 2).data.length)).sum = sampleDb.notes.length ∧
     List.Sorted noteLe (getPaginatedNotes sampleDb 1 2).data ∧
     (∃ s, s.Perm sampleDb.notes ∧ List.Sorted noteLe s ∧
        (getPaginatedNotes sampleDb 1 2).data = (s.drop ((1 - 1) * 2)).take 2) ∧
     ((getPaginatedNotes sampleDb 1 2).pagination.pages < 1 →
        (getPaginatedNotes sampleDb 1 2).data = [])) :=
  ⟨by decide, by decide, getPaginatedNotes_pagination sampleDb 1 2 (by decide) (by decide)⟩
